import Mathlib

/-!
# Verification of the Orbit File Transfer upload core (`main.py`)

A shallow embedding of the upload-ingestion and progress-tracking logic of
`main.py`: device classification (`get_device_folder`), path resolution with
the duplicate-filename loop inside `upload_file`, the per-session progress
dictionary (`upload_progress`), the `/upload` request handler and the
`/progress/<session_id>` handler.  POSIX path semantics are used throughout
(`os.path.join`, `os.path.splitext`, `os.path.basename` with separator `/`),
matching the generic CPython implementations.  The filesystem is modelled as
the list of paths that currently exist; wall-clock timestamps are not
modelled (no claim depends on them).
-/

namespace Orbit

/-! ## Characters and Python string helpers -/

/-- ASCII whitespace as recognised by Python's `str.split()` with no
arguments: space, tab, newline, vertical tab, form feed, carriage return.
(`str.split` also splits on non-ASCII Unicode whitespace; the model is
ASCII, which is all the sanitizer pipeline can ever feed it because the
preceding `encode("ascii", "ignore")` step has already dropped every
non-ASCII code point.) -/
def pyIsSpace (c : Char) : Bool :=
  c.toNat = 32 || (9 ≤ c.toNat && c.toNat ≤ 13)

/-- The character class `[A-Za-z0-9_.-]` of werkzeug's
`_filename_ascii_strip_re` (whose complement is deleted), by code point:
`A`–`Z`, `a`–`z`, `0`–`9`, `_` (95), `.` (46), `-` (45). -/
def isAsciiSafe (c : Char) : Bool :=
  (65 ≤ c.toNat && c.toNat ≤ 90) || (97 ≤ c.toNat && c.toNat ≤ 122) ||
    (48 ≤ c.toNat && c.toNat ≤ 57) || c.toNat = 95 || c.toNat = 46 || c.toNat = 45

/-- The strip set `"._"` of `str.strip("._")`. -/
def isDotUnd (c : Char) : Bool :=
  c = '.' || c = '_'

/-- The character class `[\w\-_.]` of the device-name sanitizer
`re.sub(r'[^\w\-_.]', '_', device_name)` in `get_device_folder`.  Python's
`\w` is modelled on its ASCII core `[A-Za-z0-9_]` (the classifier only ever
feeds this sanitizer the fixed ASCII labels, and idempotence does not depend
on which characters are kept, only on `'_'` being kept). -/
def isDeviceWordChar (c : Char) : Bool :=
  (65 ≤ c.toNat && c.toNat ≤ 90) || (97 ≤ c.toNat && c.toNat ≤ 122) ||
    (48 ≤ c.toNat && c.toNat ≤ 57) || c = '_' || c = '-' || c = '.'

/-- `sub` is a leading segment of `l` (used to decide Python's `in`). -/
def leadsList (sub l : List Char) : Bool :=
  match sub, l with
  | [], _ => true
  | _ :: _, [] => false
  | a :: as, b :: bs => a = b && leadsList as bs

/-- `sub` occurs contiguously somewhere in `l`. -/
def occursIn (sub : List Char) : List Char → Bool
  | [] => sub.isEmpty
  | b :: bs => leadsList sub (b :: bs) || occursIn sub bs

/-- Python's substring test `sub in s`. -/
def strContains (s sub : String) : Bool :=
  occursIn sub.data s.data

/-! ## POSIX path helpers (`os.path` with `sep = '/'`) -/

/-- `os.path.join(a, b)` for POSIX paths: an absolute second component
replaces the first; otherwise the components are concatenated, inserting a
separator unless the first is empty or already ends in one. -/
def pathJoin (a b : String) : String :=
  if b.data.head? = some '/' then b
  else if a.data = [] ∨ a.data.getLast? = some '/' then a ++ b
  else a ++ "/" ++ b

/-- Index of the last occurrence of `c` in `l`, or `-1` if absent —
CPython's `str.rfind`. -/
def rfind (c : Char) : List Char → Int
  | [] => -1
  | a :: rest =>
    let r := rfind c rest
    if r ≥ 0 then r + 1 else if a = c then 0 else -1

/-- `os.path.splitext` (generic CPython `_splitext` with `sep='/'`, no
`altsep`, `extsep='.'`): split at the last dot if it lies after the last
separator and the basename is not entirely dots up to that point. -/
def splitext (p : String) : String × String :=
  let cs := p.data
  let sepIndex := rfind '/' cs
  let dotIndex := rfind '.' cs
  if dotIndex > sepIndex then
    if ((cs.drop (sepIndex + 1).toNat).take (dotIndex - (sepIndex + 1)).toNat).all
        (fun c => c = '.') then
      (p, "")
    else
      (⟨cs.take dotIndex.toNat⟩, ⟨cs.drop dotIndex.toNat⟩)
  else (p, "")

/-- `os.path.basename`: everything after the last separator. -/
def basename (p : String) : String :=
  ⟨(p.data.reverse.takeWhile (fun c => c ≠ '/')).reverse⟩

/-! ## Decimal rendering of counters (Python f-string `{n}` for an `int`) -/

/-- The decimal digit character of `d < 10`. -/
def decDigit : Nat → Char
  | 0 => '0' | 1 => '1' | 2 => '2' | 3 => '3' | 4 => '4'
  | 5 => '5' | 6 => '6' | 7 => '7' | 8 => '8' | _ => '9'

/-- Inverse of `decDigit` on decimal digit characters. -/
def decVal : Char → Nat
  | '0' => 0 | '1' => 1 | '2' => 2 | '3' => 3 | '4' => 4
  | '5' => 5 | '6' => 6 | '7' => 7 | '8' => 8 | '9' => 9 | _ => 0

/-- Fuelled most-significant-first decimal rendering; with fuel `n + 1` it
renders `n` completely (structural in the fuel, so the kernel can
evaluate closed instances). -/
def toDecimal : Nat → Nat → List Char → List Char
  | 0, _, acc => acc
  | fuel + 1, n, acc =>
    if n < 10 then decDigit n :: acc
    else toDecimal fuel (n / 10) (decDigit (n % 10) :: acc)

/-- The decimal string of `n` — the model of Python's `f'{n}'`. -/
def natStr (n : Nat) : String :=
  ⟨toDecimal (n + 1) n []⟩

/-- The numeric value of a most-significant-first digit list (used only to
prove `natStr` injective). -/
def decListVal (l : List Char) : Nat :=
  l.foldl (fun a c => a * 10 + decVal c) 0

/-! ## Sanitizers -/

/-- One character of the device-name substitution: kept if in the class,
replaced by `'_'` otherwise. -/
def devKeep (c : Char) : Char :=
  if isDeviceWordChar c then c else '_'

/-- `re.sub(r'[^\w\-_.]', '_', device_name)` from `get_device_folder`:
every character outside the kept class is replaced by an underscore. -/
def sanitizeDeviceName (s : String) : String :=
  ⟨s.data.map devKeep⟩

/-- Python's `str.split()` (split on whitespace runs, dropping empty
pieces), written with an accumulator of the current word reversed. -/
def pySplitAux : List Char → List Char → List (List Char)
  | [], cur => if cur.isEmpty then [] else [cur.reverse]
  | c :: rest, cur =>
    if pyIsSpace c then
      if cur.isEmpty then pySplitAux rest [] else cur.reverse :: pySplitAux rest []
    else pySplitAux rest (c :: cur)

/-- `"_".join(words)`. -/
def joinUnder : List (List Char) → List Char
  | [] => []
  | [w] => w
  | w :: w' :: ws => w ++ '_' :: joinUnder (w' :: ws)

/-- `str.strip("._")`: drop the maximal run of `.`/`_` from both ends. -/
def pyStrip (l : List Char) : List Char :=
  ((l.dropWhile isDotUnd).reverse.dropWhile isDotUnd).reverse

/-- `filename.replace(os.sep, " ")` with `os.sep = '/'`, per character. -/
def slashToSpace (c : Char) : Char :=
  if c = '/' then ' ' else c

/-- werkzeug's `secure_filename` (the POSIX branch that runs here:
`os.sep = '/'`, no `altsep`, `os.name != 'nt'`): NFKD-normalize and encode
to ASCII ignoring errors (modelled as dropping every non-ASCII code point —
on ASCII input, where the two agree exactly, NFKD is the identity), replace
the separator by a space, join the whitespace-split words with underscores,
delete every character outside `[A-Za-z0-9_.-]` and strip `.`/`_` from both
ends.  This is the collaborator `filename-sanitizing utility` the spec's
§6 names; `upload_file` applies it to every desired filename. -/
def sfPipe (l : List Char) : List Char :=
  let ascii := l.filter (fun c => c.toNat < 128)
  let spaced := ascii.map slashToSpace
  let joined := joinUnder (pySplitAux spaced [])
  let kept := joined.filter isAsciiSafe
  pyStrip kept

/-- `secure_filename` as the repository calls it, on `String`. -/
def secure_filename (s : String) : String :=
  ⟨sfPipe s.data⟩

/-! ## Device classification (`get_device_folder`, lines 95–119) -/

/-- The `uploaded` upload root (`UPLOAD_FOLDER`). -/
def UPLOAD_FOLDER : String := "uploaded"

/-- The ordered substring tests of lines 101–110 that pick the raw device
label for a non-empty user agent. -/
def deviceName (ua : String) : String :=
  if strContains ua "iPhone" || strContains ua "iPad" then "iPhone"
  else if strContains ua "Android" then "Android"
  else if strContains ua "Windows" then "Windows_PC"
  else if strContains ua "Macintosh" || strContains ua "Mac OS X" then "Mac"
  else "Unknown_Device"

/-- The classification label `get_device_folder` works from: the empty
identifier short-circuits to `'unknown_device'` (line 97–98), anything else
goes through the ordered substring tests. -/
def deviceNameOf (ua : String) : String :=
  if ua = "" then "unknown_device" else deviceName ua

/-- `get_device_folder(user_agent)`: for an empty identifier it returns the
bare string `'unknown_device'` (the early return on line 98 — note: not
joined under `UPLOAD_FOLDER`, and `os.makedirs` is never reached); otherwise
the sanitized label joined under the upload root (the directory is then
created with `exist_ok=True`, modelled as a no-op on the path value). -/
def get_device_folder (ua : String) : String :=
  if ua = "" then "unknown_device"
  else pathJoin UPLOAD_FOLDER (sanitizeDeviceName (deviceName ua))

/-! ## Path resolution (`upload_file`, lines 150–159)

The filesystem is a finite list of existing paths; `os.path.exists` is
membership. -/

/-- `allowed_file` (lines 34–36): every filename is allowed. -/
def allowed_file (_filename : String) : Bool := true

/-- The candidate paths tried by the duplicate-filename `while` loop.
Candidate 0 is `os.path.join(device_folder, filename)`; candidate `k ≥ 1`
is `os.path.join(device_folder, f'{name}_{k}{ext}')` where
`(name, ext) = os.path.splitext(original_filepath)` — `name` is the whole
path minus the extension, because the source passes `original_filepath`
(not the bare filename) to `splitext`. -/
def candidate (device_folder filename : String) : Nat → String
  | 0 => pathJoin device_folder filename
  | k + 1 =>
    let filepath0 := pathJoin device_folder filename
    let ne := splitext filepath0
    pathJoin device_folder (ne.1 ++ "_" ++ natStr (k + 1) ++ ne.2)

/-- The `while os.path.exists(filepath)` loop, fuelled: starting from
candidate `i`, return the first candidate not in `existing`; if the fuel
runs out return the current candidate unchecked.  (`resolvePath` supplies
fuel `existing.length + 1`, which `c9_resolver_terminates_fresh` proves is
always enough for the loop to exit by its own test.) -/
def resolveLoop (existing : List String) (cand : Nat → String) : Nat → Nat → String
  | 0, i => cand i
  | fuel + 1, i =>
    if cand i ∈ existing then resolveLoop existing cand fuel (i + 1) else cand i

/-- Lines 150–159 of `upload_file`: the destination path chosen for
(already-sanitized) `filename` in `device_folder` given the existing
paths. -/
def resolvePath (existing : List String) (device_folder filename : String) : String :=
  resolveLoop existing (candidate device_folder filename) (existing.length + 1) 0

/-! ## The `/upload` handler (`upload_file`, lines 122–188) -/

/-- One part of the multipart body: the client-supplied filename, the byte
count the write would leave on disk, and — injecting the environment —
whether `file.save` raises (`failMsg = some m` models an `IOError` with
message `m`; any exception lands in the `except` block of lines 177–180). -/
structure FilePart where
  filename : String
  size : Nat
  failMsg : Option String
deriving DecidableEq

/-- The `file_info` dict of lines 163–168.  The wall-clock
`datetime.now().isoformat()` timestamp is not modelled (real time; no claim
depends on its value). -/
structure FileInfo where
  filename : String
  size : Nat
  device_folder : String
deriving DecidableEq

/-- One entry of the `upload_progress` dictionary (line 138 and its
mutations). -/
structure SessionState where
  progress : Nat
  status : String
  total_files : Nat
  uploaded_files : List FileInfo
  current_file : Option String
deriving DecidableEq

/-- The JSON responses `upload_file` can produce: the 400 error bodies
(`{'error': msg}`), the 500 body `{'success': False, 'error': msg}`, and
the 200 success body of lines 182–188. -/
inductive UploadResponse where
  | badRequest (error : String)
  | serverError (error : String)
  | ok (session_id device_folder message : String) (files : List FileInfo)
deriving DecidableEq

/-- The HTTP status code attached to each response shape. -/
def respStatus : UploadResponse → Nat
  | .badRequest _ => 400
  | .serverError _ => 500
  | .ok _ _ _ _ => 200

/-- Whether the body carries `success: true`. -/
def respOk : UploadResponse → Bool
  | .ok _ _ _ _ => true
  | _ => false

/-- The `files` list of a success body. -/
def respFiles : UploadResponse → Option (List FileInfo)
  | .ok _ _ _ fs => some fs
  | _ => none

/-- The in-memory `upload_progress` registry: session id → record. -/
def Tracker := List (String × SessionState)

/-- Dictionary lookup `upload_progress.get(sid)`. -/
def trackerGet (t : Tracker) (sid : String) : Option SessionState :=
  (List.find? (fun p => p.1 = sid) t).map (fun p => p.2)

/-- Dictionary assignment `upload_progress[sid] = v`. -/
def trackerSet (t : Tracker) (sid : String) (v : SessionState) : Tracker :=
  (sid, v) :: List.filter (fun p => p.1 ≠ sid) t

/-- The guard of line 144: `if file and allowed_file(file.filename)` —
a `FileStorage` is truthy iff its filename is non-empty. -/
def filePasses (p : FilePart) : Bool :=
  (p.filename != "") && allowed_file p.filename

/-- `int((idx / len(files)) * 100)` of line 146, modelled by exact integer
floor.  This is an idealization: the Python expression divides in binary64
floating point before truncating and diverges from the exact floor at some
reachable inputs (CPython writes 57 where the floor is 58 at
`idx = 29, n = 50`, and 28 where the floor is 29 at `idx = 29, n = 100`).
The loop model needs some value here, but no theorem below asserts these
in-flight values of the program: the progress facts proved use only the
literal constants 0 and 100 that the source writes exactly, and the
concrete counterexample run touches only the points `0/2` and `1/2`, where
binary64 arithmetic is exact and the float expression coincides with this
floor. -/
def progressAt (idx n : Nat) : Nat :=
  idx * 100 / n

/-- The state threaded through the `for idx, file in enumerate(files)`
loop: the filesystem, the session record, the response's `uploaded_files`
accumulator, and the trace of values assigned to
`upload_progress[sid]['progress']` in order (to state monotonicity). -/
structure LoopState where
  fs : List String
  sess : SessionState
  uploaded : List FileInfo
  trace : List Nat
deriving DecidableEq

/-- Lines 143–170 plus the `except` block: process the files in arrival
order.  A passing file first gets the in-flight tracker update
(lines 146–148), then its destination is resolved and the save attempted;
on success the descriptor is appended (lines 162–170), on failure the
`except` block of lines 177–179 resets progress to 0, records
`'error: ' + str(e)` and aborts the rest (`some errMsg` is returned so the
caller can build the 500 response). -/
def processFiles (device_folder : String) (n : Nat) :
    List FilePart → Nat → LoopState → LoopState × Option String
  | [], _, st => (st, none)
  | p :: rest, idx, st =>
    if filePasses p then
      let fname := secure_filename p.filename
      let prog := progressAt idx n
      let sess1 : SessionState :=
        { st.sess with
          progress := prog
          status := "Uploading file " ++ natStr (idx + 1) ++ " of " ++ natStr n ++ ": " ++ fname
          current_file := some fname }
      let filepath := resolvePath st.fs device_folder fname
      match p.failMsg with
      | some m =>
        ({ st with
           sess := { sess1 with progress := 0, status := "error: " ++ m }
           trace := st.trace ++ [prog, 0] },
         some m)
      | none =>
        let info : FileInfo :=
          { filename := basename filepath, size := p.size,
            device_folder := basename device_folder }
        processFiles device_folder n rest (idx + 1)
          { fs := filepath :: st.fs
            sess := { sess1 with uploaded_files := sess1.uploaded_files ++ [info] }
            uploaded := st.uploaded ++ [info]
            trace := st.trace ++ [prog] }
    else processFiles device_folder n rest (idx + 1) st

/-- The filesystem projection of the upload loop: the paths on disk after
the loop runs (stopping at the first failing file, skipping non-passing
parts).  `processFiles_fs` proves this is exactly the `fs` component of
`processFiles`, for every total count and start index — which is how the
model states that files after a failure are never attempted. -/
def fsAfter (df : String) : List FilePart → List String → List String
  | [], fs => fs
  | p :: rest, fs =>
    if filePasses p then
      match p.failMsg with
      | some _ => fs
      | none => fsAfter df rest (resolvePath fs df (secure_filename p.filename) :: fs)
    else fsAfter df rest fs

/-- The overall result of one `/upload` request against tracker `tracker`
and filesystem `fs`: the JSON response, the updated registry, the updated
filesystem, and the trace of progress values written for the session. -/
structure UploadResult where
  response : UploadResponse
  tracker : Tracker
  fs : List String
  trace : List Nat

/-- `upload_file` (lines 122–188).  `sid` stands for the generated
`uuid.uuid4()` (opaque fresh token), `ua` for
`request.headers.get('User-Agent', '')`, `files` for
`request.files.getlist('files')`.  In a multipart body the key `'files'`
is present iff at least one part carries it, so line 125's
`'files' not in request.files` is the emptiness test and line 129's
`len(files) == 0` branch is unreachable (kept for fidelity). -/
def upload_file (tracker : Tracker) (sid ua : String) (files : List FilePart)
    (fs0 : List String) : UploadResult :=
  if files.isEmpty then
    { response := .badRequest "No files provided", tracker := tracker, fs := fs0, trace := [] }
  else if files.length = 0 then
    { response := .badRequest "No files selected", tracker := tracker, fs := fs0, trace := [] }
  else
    let device_folder := get_device_folder ua
    let n := files.length
    let sess0 : SessionState :=
      { progress := 0, status := "starting", total_files := n,
        uploaded_files := [], current_file := none }
    let r := processFiles device_folder n files 0
      { fs := fs0, sess := sess0, uploaded := [], trace := [0] }
    match r.2 with
    | some m =>
      { response := .serverError m
        tracker := trackerSet tracker sid r.1.sess
        fs := r.1.fs
        trace := r.1.trace }
    | none =>
      let sessF : SessionState :=
        { r.1.sess with progress := 100, status := "completed", current_file := none }
      { response := .ok sid (basename device_folder)
          (natStr r.1.uploaded.length ++ " file(s) uploaded successfully to "
            ++ basename device_folder)
          r.1.uploaded
        tracker := trackerSet tracker sid sessF
        fs := r.1.fs
        trace := r.1.trace ++ [100] }

/-! ## The `/progress/<session_id>` handler (lines 242–246) -/

/-- `get_progress`: the stored record when the id is known, otherwise the
literal sentinel dict `{'progress': 0, 'status': 'not started'}` (carried
as the pair of its two fields). -/
def get_progress (t : Tracker) (sid : String) : SessionState ⊕ (Nat × String) :=
  match trackerGet t sid with
  | some s => Sum.inl s
  | none => Sum.inr (0, "not started")

/-! # Theorems -/

/-- C5: device classification is a pure total function of the identifier,
decided by ordered substring tests with the first matching rule winning:
`iPhone`/`iPad` → `"iPhone"`, else `Android` → `"Android"`, else
`Windows` → `"Windows_PC"`, else `Macintosh`/`Mac OS X` → `"Mac"`, else
`"Unknown_Device"`; the empty identifier yields `"unknown_device"`. -/
theorem c5_classification (ua : String) :
    (ua = "" → deviceNameOf ua = "unknown_device")
    ∧ (ua ≠ "" → (strContains ua "iPhone" = true ∨ strContains ua "iPad" = true) →
        deviceNameOf ua = "iPhone")
    ∧ (ua ≠ "" → strContains ua "iPhone" = false → strContains ua "iPad" = false →
        strContains ua "Android" = true → deviceNameOf ua = "Android")
    ∧ (ua ≠ "" → strContains ua "iPhone" = false → strContains ua "iPad" = false →
        strContains ua "Android" = false → strContains ua "Windows" = true →
        deviceNameOf ua = "Windows_PC")
    ∧ (ua ≠ "" → strContains ua "iPhone" = false → strContains ua "iPad" = false →
        strContains ua "Android" = false → strContains ua "Windows" = false →
        (strContains ua "Macintosh" = true ∨ strContains ua "Mac OS X" = true) →
        deviceNameOf ua = "Mac")
    ∧ (ua ≠ "" → strContains ua "iPhone" = false → strContains ua "iPad" = false →
        strContains ua "Android" = false → strContains ua "Windows" = false →
        strContains ua "Macintosh" = false → strContains ua "Mac OS X" = false →
        deviceNameOf ua = "Unknown_Device") := by
  refine ⟨fun h => by simp [deviceNameOf, h], ?_, ?_, ?_, ?_, ?_⟩
  · rintro hne (h | h) <;> simp [deviceNameOf, deviceName, hne, h]
  · intro hne h1 h2 h3
    simp [deviceNameOf, deviceName, hne, h1, h2, h3]
  · intro hne h1 h2 h3 h4
    simp [deviceNameOf, deviceName, hne, h1, h2, h3, h4]
  · rintro hne h1 h2 h3 h4 (h | h) <;>
      simp [deviceNameOf, deviceName, hne, h1, h2, h3, h4, h]
  · intro hne h1 h2 h3 h4 h5 h6
    simp [deviceNameOf, deviceName, hne, h1, h2, h3, h4, h5, h6]

/-- Witness for C5 at the concrete identifier `"Mozilla (iPad; CPU)"`. -/
theorem c5_classification_witness :
    deviceNameOf "Mozilla (iPad; CPU)" = "iPhone" :=
  (c5_classification "Mozilla (iPad; CPU)").2.1 (by decide) (Or.inr (by decide))

/-- C6: a request with an empty file list gets the 400 response
`{error: "No files provided"}`; the progress registry and the filesystem
are untouched (no session is ever created). -/
theorem c6_no_files_rejected_before_tracker (t : Tracker) (sid ua : String)
    (fs0 : List String) :
    (upload_file t sid ua [] fs0).response = UploadResponse.badRequest "No files provided"
    ∧ respStatus (upload_file t sid ua [] fs0).response = 400
    ∧ (upload_file t sid ua [] fs0).tracker = t
    ∧ (upload_file t sid ua [] fs0).fs = fs0 := by
  refine ⟨?_, ?_, ?_, ?_⟩ <;> simp [upload_file, respStatus]

/-- C7: a progress query for a session id the tracker has never seen
returns the sentinel `{progress: 0, status: "not started"}` (the handler is
a total function — it cannot raise). -/
theorem c7_unknown_session_sentinel (t : Tracker) (sid : String)
    (h : trackerGet t sid = none) :
    get_progress t sid = Sum.inr (0, "not started") := by
  simp [get_progress, h]

/-- Witness for C7 at the empty registry and a concrete unused id. -/
theorem c7_unknown_session_sentinel_witness :
    get_progress [] "11111111-2222-3333-4444-555555555555" = Sum.inr (0, "not started") :=
  c7_unknown_session_sentinel [] "11111111-2222-3333-4444-555555555555" rfl

/-- C10: the file-type filter accepts every filename, and consequently a
request whose single part carries any non-empty filename (whatever its
extension) is written and reported back — ingestion never rejects a file
for its name. -/
theorem c10_every_filename_allowed :
    (∀ s : String, allowed_file s = true)
    ∧ ∀ (t : Tracker) (sid ua : String) (fs0 : List String) (p : FilePart),
        p.filename ≠ "" → p.failMsg = none →
        respOk (upload_file t sid ua [p] fs0).response = true
        ∧ (respFiles (upload_file t sid ua [p] fs0).response).map List.length = some 1 := by
  refine ⟨fun _ => rfl, ?_⟩
  intro t sid ua fs0 p hname hfail
  obtain ⟨f, sz, fm⟩ := p
  subst hfail
  simp only at hname
  simp [upload_file, processFiles, filePasses, allowed_file, respOk, respFiles,
    bne_iff_ne, hname]

/-- Witness for C10: a `.exe` part is accepted and written. -/
theorem c10_every_filename_allowed_witness :
    respOk (upload_file [] "s1" "Windows NT" [⟨"tool.exe", 9, none⟩] []).response = true
    ∧ (respFiles (upload_file [] "s1" "Windows NT" [⟨"tool.exe", 9, none⟩] []).response).map
        List.length = some 1 :=
  c10_every_filename_allowed.2 [] "s1" "Windows NT" [] ⟨"tool.exe", 9, none⟩ (by decide) rfl

/-- C1 (code bug): with `uploaded/iPhone/photo.jpg` already on disk, the
duplicate-filename loop resolves a second `photo.jpg` not to
`uploaded/iPhone/photo_1.jpg` in the same category directory but to the
nested path `uploaded/iPhone/uploaded/iPhone/photo_1.jpg` — line 157 feeds
the full `original_filepath` (not the bare filename) to `os.path.splitext`
and line 158 joins the result under `device_folder` again.  (No directory
`uploaded/iPhone/uploaded/iPhone` exists, so the subsequent `file.save`
raises and the request 500s instead of storing `photo_1.jpg`.) -/
theorem c1_duplicate_resolution_escapes_directory :
    resolvePath ["uploaded/iPhone/photo.jpg"] "uploaded/iPhone" "photo.jpg"
      = "uploaded/iPhone/uploaded/iPhone/photo_1.jpg"
    ∧ resolvePath ["uploaded/iPhone/photo.jpg"] "uploaded/iPhone" "photo.jpg"
      ≠ "uploaded/iPhone/photo_1.jpg" := by
  exact ⟨by decide, by decide⟩

/-- C2 (code bug): for an empty client identifier, `get_device_folder`
returns the bare string `'unknown_device'` (line 98) instead of a directory
under the upload root, so the destination the handler writes to is
`unknown_device/photo.jpg` — a sibling of `uploaded`, not
`uploaded/unknown_device/photo.jpg` — and, the early return also skipping
`os.makedirs`, the directory is never created. -/
theorem c2_empty_identifier_destination_outside_root :
    get_device_folder "" = "unknown_device"
    ∧ resolvePath [] (get_device_folder "") (secure_filename "photo.jpg")
      = "unknown_device/photo.jpg"
    ∧ leadsList "uploaded/".data
        (resolvePath [] (get_device_folder "") (secure_filename "photo.jpg")).data = false := by
  exact ⟨by decide, by decide, by decide⟩

/-! ### Sanitizer idempotence (C8) -/

theorem devKeep_devKeep (c : Char) : devKeep (devKeep c) = devKeep c := by
  by_cases hc : isDeviceWordChar c = true
  · simp [devKeep, hc]
  · simp only [devKeep, hc]
    simp [isDeviceWordChar]

theorem map_devKeep_idem (l : List Char) :
    (l.map devKeep).map devKeep = l.map devKeep := by
  induction l with
  | nil => rfl
  | cons c rest ih => simp [devKeep_devKeep, ih]

/-- The head of a `dropWhile` never satisfies the dropped predicate. -/
theorem head_dropWhile_false {α : Type} (p : α → Bool) (l : List α) :
    ∀ c, (l.dropWhile p).head? = some c → p c = false := by
  induction l with
  | nil => intro c h; simp at h
  | cons a rest ih =>
    intro c h
    by_cases hp : p a = true
    · rw [List.dropWhile_cons, if_pos hp] at h
      exact ih c h
    · rw [List.dropWhile_cons, if_neg hp] at h
      simp only [List.head?_cons, Option.some.injEq] at h
      subst h
      exact Bool.eq_false_iff.mpr hp

/-- A `dropWhile` removes only a leading segment: the last element
survives whenever anything does. -/
theorem getLast?_dropWhile {α : Type} (p : α → Bool) (l : List α)
    (h : l.dropWhile p ≠ []) : (l.dropWhile p).getLast? = l.getLast? := by
  induction l with
  | nil => simp at h
  | cons a rest ih =>
    by_cases hp : p a = true
    · rw [List.dropWhile_cons, if_pos hp] at h ⊢
      have hrest : rest ≠ [] := by
        intro hr; rw [hr] at h; simp at h
      obtain ⟨b, rest', rfl⟩ := List.exists_cons_of_ne_nil hrest
      rw [ih h, List.getLast?_cons_cons]
    · rw [List.dropWhile_cons, if_neg hp]

theorem dropWhile_eq_self_of_head {α : Type} (p : α → Bool) (l : List α)
    (h : ∀ c, l.head? = some c → p c = false) : l.dropWhile p = l := by
  cases l with
  | nil => rfl
  | cons a rest =>
    have := h a rfl
    rw [List.dropWhile_cons, if_neg (by simp [this])]

theorem mem_dropWhile {α : Type} {p : α → Bool} {l : List α} {c : α}
    (h : c ∈ l.dropWhile p) : c ∈ l :=
  (List.dropWhile_sublist p (l := l)).subset h

theorem mem_pyStrip {l : List Char} {c : Char} (h : c ∈ pyStrip l) : c ∈ l := by
  unfold pyStrip at h
  rw [List.mem_reverse] at h
  have h1 := mem_dropWhile h
  rw [List.mem_reverse] at h1
  exact mem_dropWhile h1

/-- The output of `pyStrip` neither starts nor ends with a strippable
character. -/
theorem pyStrip_ends (l : List Char) :
    (∀ c, (pyStrip l).head? = some c → isDotUnd c = false) ∧
    (∀ c, (pyStrip l).getLast? = some c → isDotUnd c = false) := by
  unfold pyStrip
  set A := l.dropWhile isDotUnd with hA
  set C := A.reverse.dropWhile isDotUnd with hC
  constructor
  · intro c h
    rw [List.head?_reverse] at h
    by_cases hCnil : C = []
    · rw [hCnil] at h; simp at h
    · rw [hC, getLast?_dropWhile _ _ (hC ▸ hCnil), List.getLast?_reverse] at h
      exact head_dropWhile_false isDotUnd l c (hA ▸ h)
  · intro c h
    rw [List.getLast?_reverse] at h
    exact head_dropWhile_false isDotUnd A.reverse c (hC ▸ h)

/-- `pyStrip` is idempotent. -/
theorem pyStrip_pyStrip (l : List Char) : pyStrip (pyStrip l) = pyStrip l := by
  obtain ⟨hhead, hlast⟩ := pyStrip_ends l
  have h1 : (pyStrip l).dropWhile isDotUnd = pyStrip l :=
    dropWhile_eq_self_of_head _ _ hhead
  have h2 : (pyStrip l).reverse.dropWhile isDotUnd = (pyStrip l).reverse := by
    refine dropWhile_eq_self_of_head _ _ ?_
    intro c hc
    rw [List.head?_reverse] at hc
    exact hlast c hc
  calc pyStrip (pyStrip l)
      = (((pyStrip l).dropWhile isDotUnd).reverse.dropWhile isDotUnd).reverse := rfl
    _ = pyStrip l := by rw [h1, h2, List.reverse_reverse]

theorem map_id_of {α : Type} (f : α → α) (l : List α) (h : ∀ c ∈ l, f c = c) :
    l.map f = l := by
  induction l with
  | nil => rfl
  | cons a rest ih =>
    rw [List.map_cons, h a (List.mem_cons_self a rest),
      ih fun c hc => h c (List.mem_cons_of_mem a hc)]

/-- Splitting a whitespace-free string yields the one word (or nothing). -/
theorem pySplitAux_no_space (l : List Char) :
    ∀ cur, (∀ c ∈ l, pyIsSpace c = false) →
      pySplitAux l cur =
        if cur.reverse ++ l = [] then [] else [cur.reverse ++ l] := by
  induction l with
  | nil =>
    intro cur _
    simp only [pySplitAux, List.append_nil]
    cases cur with
    | nil => simp
    | cons a as => simp
  | cons c rest ih =>
    intro cur h
    have hc : pyIsSpace c = false := h c (List.mem_cons_self c rest)
    have hstep : pySplitAux (c :: rest) cur = pySplitAux rest (c :: cur) := by
      simp [pySplitAux, hc]
    rw [hstep, ih (c :: cur) fun d hd => h d (List.mem_cons_of_mem c hd)]
    have hrw : (c :: cur).reverse ++ rest = cur.reverse ++ c :: rest := by
      simp
    rw [hrw]

/-- Everything the sanitizing pipeline emits is in the kept class
`[A-Za-z0-9_.-]`. -/
theorem sfPipe_chars (l : List Char) :
    ∀ c ∈ sfPipe l, isAsciiSafe c = true := by
  intro c hc
  unfold sfPipe at hc
  simp only at hc
  exact (List.mem_filter.mp (mem_pyStrip hc)).2

/-- Characters of the kept class are ASCII, are not the path separator,
are not whitespace, and are fixed by `slashToSpace`. -/
theorem isAsciiSafe_facts {c : Char} (h : isAsciiSafe c = true) :
    c.toNat < 128 ∧ slashToSpace c = c ∧ pyIsSpace c = false := by
  have hslash : c.toNat ≠ 47 → slashToSpace c = c := by
    intro hn
    have : ¬c = '/' := by
      intro he; exact hn (by rw [he]; rfl)
    simp [slashToSpace, this]
  simp only [isAsciiSafe, Bool.or_eq_true, Bool.and_eq_true,
    decide_eq_true_eq] at h
  rcases h with ((((⟨h1, h2⟩ | ⟨h1, h2⟩) | ⟨h1, h2⟩) | h1) | h1) | h1 <;>
    refine ⟨by omega, hslash (by omega), ?_⟩ <;>
    simp only [pyIsSpace, Bool.or_eq_false_iff, Bool.and_eq_false_iff,
      decide_eq_false_iff_not] <;> omega

/-- The sanitizing pipeline is idempotent on character lists. -/
theorem sfPipe_sfPipe (l : List Char) : sfPipe (sfPipe l) = sfPipe l := by
  have hsafe := sfPipe_chars l
  set y := sfPipe l with hy
  have hfilter : y.filter (fun c => decide (c.toNat < 128)) = y :=
    List.filter_eq_self.mpr fun c hc => by
      simp [(isAsciiSafe_facts (hsafe c hc)).1]
  have hmap : y.map slashToSpace = y :=
    map_id_of _ _ fun c hc => (isAsciiSafe_facts (hsafe c hc)).2.1
  have hnospace : ∀ c ∈ y, pyIsSpace c = false :=
    fun c hc => (isAsciiSafe_facts (hsafe c hc)).2.2
  have hkeep : y.filter isAsciiSafe = y :=
    List.filter_eq_self.mpr fun c hc => hsafe c hc
  have hstrip : pyStrip y = y := by
    rw [hy]
    show pyStrip (pyStrip _) = pyStrip _
    rw [pyStrip_pyStrip]
  show pyStrip ((joinUnder
      (pySplitAux ((y.filter (fun c => decide (c.toNat < 128))).map slashToSpace) [])).filter
        isAsciiSafe) = y
  rw [hfilter, hmap, pySplitAux_no_space y [] hnospace]
  cases hynil : y with
  | nil => simp [joinUnder, pyStrip]
  | cons a rest =>
    rw [← hynil, if_neg (by simp [hynil])]
    simp only [List.reverse_nil, List.nil_append, joinUnder]
    rw [hkeep, hstrip]

/-- C8: both sanitizers are idempotent — re-sanitizing an already
sanitized device label (`re.sub(r'[^\w\-_.]', '_', ·)`) or an already
sanitized filename (werkzeug's `secure_filename`) returns it unchanged. -/
theorem c8_sanitization_idempotent (s : String) :
    sanitizeDeviceName (sanitizeDeviceName s) = sanitizeDeviceName s
    ∧ secure_filename (secure_filename s) = secure_filename s := by
  constructor
  · show (⟨(s.data.map devKeep).map devKeep⟩ : String) = ⟨s.data.map devKeep⟩
    rw [map_devKeep_idem]
  · show (⟨sfPipe (sfPipe s.data)⟩ : String) = ⟨sfPipe s.data⟩
    rw [sfPipe_sfPipe]

/-! ### Decimal rendering: correctness and injectivity -/

theorem toDecimal_acc (fuel : Nat) :
    ∀ (n : Nat) (acc : List Char),
      toDecimal fuel n acc = toDecimal fuel n [] ++ acc := by
  induction fuel with
  | zero => intro n acc; simp [toDecimal]
  | succ fuel ih =>
    intro n acc
    by_cases h : n < 10
    · simp [toDecimal, h]
    · rw [show toDecimal (fuel + 1) n acc
          = toDecimal fuel (n / 10) (decDigit (n % 10) :: acc) by simp [toDecimal, h],
        show toDecimal (fuel + 1) n []
          = toDecimal fuel (n / 10) [decDigit (n % 10)] by simp [toDecimal, h],
        ih (n / 10) (decDigit (n % 10) :: acc), ih (n / 10) [decDigit (n % 10)],
        List.append_assoc]
      rfl

theorem decVal_decDigit {d : Nat} (h : d < 10) : decVal (decDigit d) = d := by
  interval_cases d <;> rfl

theorem decListVal_append_one (l : List Char) (c : Char) :
    decListVal (l ++ [c]) = decListVal l * 10 + decVal c := by
  simp [decListVal, List.foldl_append]

theorem toDecimal_val (fuel : Nat) :
    ∀ n : Nat, n < 10 ^ fuel → decListVal (toDecimal fuel n []) = n := by
  induction fuel with
  | zero =>
    intro n h
    simp only [pow_zero, Nat.lt_one_iff] at h
    subst h
    rfl
  | succ fuel ih =>
    intro n h
    by_cases h10 : n < 10
    · simp only [toDecimal, if_pos h10]
      show 0 * 10 + decVal (decDigit n) = n
      rw [decVal_decDigit h10]
      omega
    · rw [show toDecimal (fuel + 1) n []
          = toDecimal fuel (n / 10) [decDigit (n % 10)] by simp [toDecimal, h10],
        toDecimal_acc, decListVal_append_one,
        ih (n / 10) (by
          rw [pow_succ] at h
          omega),
        decVal_decDigit (Nat.mod_lt n (by omega))]
      have := Nat.div_add_mod n 10
      omega

theorem lt_ten_pow (n : Nat) : n < 10 ^ (n + 1) :=
  lt_of_lt_of_le (Nat.lt_pow_self (by omega) n)
    (Nat.pow_le_pow_right (by omega) (Nat.le_succ n))

theorem natStr_inj {a b : Nat} (h : natStr a = natStr b) : a = b := by
  have hd : toDecimal (a + 1) a [] = toDecimal (b + 1) b [] :=
    congrArg String.data h
  have := congrArg decListVal hd
  rwa [toDecimal_val _ a (lt_ten_pow a), toDecimal_val _ b (lt_ten_pow b)] at this

theorem toDecimal_len_ge (fuel : Nat) :
    ∀ (n : Nat) (acc : List Char), acc.length ≤ (toDecimal fuel n acc).length := by
  induction fuel with
  | zero => intro n acc; simp [toDecimal]
  | succ fuel ih =>
    intro n acc
    by_cases h : n < 10
    · simp [toDecimal, h]
    · rw [show toDecimal (fuel + 1) n acc
          = toDecimal fuel (n / 10) (decDigit (n % 10) :: acc) by simp [toDecimal, h]]
      calc acc.length ≤ (decDigit (n % 10) :: acc).length := by simp
        _ ≤ _ := ih (n / 10) _

theorem natStr_len_pos (n : Nat) : 1 ≤ (natStr n).data.length := by
  show 1 ≤ (toDecimal (n + 1) n []).length
  by_cases h : n < 10
  · simp [toDecimal, h]
  · rw [show toDecimal (n + 1) n []
        = toDecimal n (n / 10) [decDigit (n % 10)] by
          cases n with
          | zero => omega
          | succ m => simp [toDecimal, h]]
    calc 1 = ([decDigit (n % 10)] : List Char).length := rfl
      _ ≤ _ := toDecimal_len_ge n _ _

/-! ### Path resolution terminates with a fresh path (C9) -/

theorem strData_append (a b : String) : (a ++ b).data = a.data ++ b.data := by
  cases a; cases b; rfl

theorem strData_inj {a b : String} (h : a.data = b.data) : a = b := by
  cases a; cases b; exact congrArg String.mk h

/-- `os.path.splitext` splits the path: root and extension concatenate back
to the input. -/
theorem splitext_append (p : String) : (splitext p).1 ++ (splitext p).2 = p := by
  unfold splitext
  by_cases h1 : rfind '.' p.data > rfind '/' p.data
  · by_cases h2 : ((p.data.drop (rfind '/' p.data + 1).toNat).take
        (rfind '.' p.data - (rfind '/' p.data + 1)).toNat).all (fun c => c = '.')
    · simp only [h1, h2, if_true, if_pos]
      apply strData_inj
      rw [strData_append]
      simp
    · simp only [h1, h2, if_true, if_false, if_neg, if_pos]
      apply strData_inj
      rw [strData_append]
      show p.data.take _ ++ p.data.drop _ = p.data
      exact List.take_append_drop _ _
  · simp only [h1, if_false, if_neg]
    apply strData_inj
    rw [strData_append]
    simp

theorem pathJoin_len (a b : String) :
    b.data.length ≤ (pathJoin a b).data.length := by
  unfold pathJoin
  by_cases h1 : b.data.head? = some '/'
  · rw [if_pos h1]
  · rw [if_neg h1]
    by_cases h2 : a.data = [] ∨ a.data.getLast? = some '/'
    · rw [if_pos h2, strData_append, List.length_append]
      omega
    · rw [if_neg h2, strData_append, strData_append,
        List.length_append, List.length_append]
      omega

/-- Joining the same directory with two suffixes that begin with the same
character is injective in the suffix. -/
theorem pathJoin_cancel {a b b' : String} (hhead : b.data.head? = b'.data.head?)
    (h : pathJoin a b = pathJoin a b') : b = b' := by
  unfold pathJoin at h
  rw [hhead] at h
  by_cases h1 : b'.data.head? = some '/'
  · rwa [if_pos h1, if_pos h1] at h
  · rw [if_neg h1, if_neg h1] at h
    by_cases h2 : a.data = [] ∨ a.data.getLast? = some '/'
    · rw [if_pos h2, if_pos h2] at h
      have hd := congrArg String.data h
      rw [strData_append, strData_append] at hd
      exact strData_inj (List.append_cancel_left hd)
    · rw [if_neg h2, if_neg h2] at h
      have hd := congrArg String.data h
      simp only [strData_append, List.append_assoc] at hd
      exact strData_inj (List.append_cancel_left (List.append_cancel_left hd))

theorem candidate_succ_len (df fn : String) (k : Nat) :
    (candidate df fn 0).data.length + 2 ≤ (candidate df fn (k + 1)).data.length := by
  show (pathJoin df fn).data.length + 2
      ≤ (pathJoin df ((splitext (pathJoin df fn)).1 ++ "_" ++ natStr (k + 1)
          ++ (splitext (pathJoin df fn)).2)).data.length
  refine le_trans ?_ (pathJoin_len df _)
  rw [strData_append, strData_append, strData_append,
    List.length_append, List.length_append, List.length_append]
  have hsplit : (splitext (pathJoin df fn)).1.data.length
      + (splitext (pathJoin df fn)).2.data.length = (pathJoin df fn).data.length := by
    have h0 := congrArg String.data (splitext_append (pathJoin df fn))
    rw [strData_append] at h0
    have h1 := congrArg List.length h0
    rw [List.length_append] at h1
    exact h1
  have hns := natStr_len_pos (k + 1)
  have hu : ("_" : String).data.length = 1 := rfl
  omega

theorem head?_append_same {α : Type} (x : List α) {y y' : List α}
    (h : y.head? = y'.head?) : (x ++ y).head? = (x ++ y').head? := by
  cases x with
  | nil => simpa using h
  | cons a rest => rfl

theorem candidate_inj (df fn : String) : Function.Injective (candidate df fn) := by
  intro j k h
  match j, k with
  | 0, 0 => rfl
  | 0, k + 1 =>
    exfalso
    have := candidate_succ_len df fn k
    rw [h] at this
    omega
  | j + 1, 0 =>
    exfalso
    have := candidate_succ_len df fn j
    rw [← h] at this
    omega
  | j + 1, k + 1 =>
    have hcancel : (splitext (pathJoin df fn)).1 ++ "_" ++ natStr (j + 1)
        ++ (splitext (pathJoin df fn)).2
        = (splitext (pathJoin df fn)).1 ++ "_" ++ natStr (k + 1)
          ++ (splitext (pathJoin df fn)).2 := by
      refine pathJoin_cancel ?_ h
      simp only [strData_append, List.append_assoc]
      exact head?_append_same _ rfl
    have hdata := congrArg String.data hcancel
    simp only [strData_append, List.append_assoc] at hdata
    have h1 := List.append_cancel_left hdata
    have h2 := List.append_cancel_left h1
    have h3 := List.append_cancel_right h2
    have : (j : Nat) + 1 = k + 1 := natStr_inj (strData_inj h3)
    omega

/-- If some candidate in the fuel window is fresh, the loop returns a fresh
path (it can only return an existing path by exhausting its fuel). -/
theorem resolveLoop_found (existing : List String) (cand : Nat → String) :
    ∀ (fuel i : Nat), (∃ j, i ≤ j ∧ j < i + fuel ∧ cand j ∉ existing) →
      resolveLoop existing cand fuel i ∉ existing := by
  intro fuel
  induction fuel with
  | zero =>
    intro i ⟨j, h1, h2, _⟩
    omega
  | succ fuel ih =>
    intro i ⟨j, h1, h2, h3⟩
    by_cases hmem : cand i ∈ existing
    · rw [show resolveLoop existing cand (fuel + 1) i
          = resolveLoop existing cand fuel (i + 1) by simp [resolveLoop, hmem]]
      refine ih (i + 1) ⟨j, ?_, by omega, h3⟩
      rcases Nat.eq_or_lt_of_le h1 with rfl | hlt
      · exact absurd hmem h3
      · omega
    · rw [show resolveLoop existing cand (fuel + 1) i = cand i by
          simp [resolveLoop, hmem]]
      exact hmem

/-- Pigeonhole: an injective candidate sequence cannot keep hitting a
finite list of existing paths forever. -/
theorem exists_fresh_candidate (existing : List String) (cand : Nat → String)
    (hinj : Function.Injective cand) :
    ∃ j, j ≤ existing.length ∧ cand j ∉ existing := by
  by_contra hall
  push_neg at hall
  set L := (List.range (existing.length + 1)).map cand with hL
  have hnodup : L.Nodup := (List.nodup_range _).map hinj
  have hsub : L.toFinset ⊆ existing.toFinset := by
    intro x hx
    rw [List.mem_toFinset] at hx ⊢
    rw [hL, List.mem_map] at hx
    obtain ⟨j, hj, rfl⟩ := hx
    exact hall j (by simpa using Nat.lt_succ_iff.mp (List.mem_range.mp hj))
  have hcard1 : L.toFinset.card = existing.length + 1 := by
    rw [List.toFinset_card_of_nodup hnodup, hL]
    simp
  have hcard2 : existing.toFinset.card ≤ existing.length := List.toFinset_card_le _
  have := Finset.card_le_card hsub
  omega

/-- C9: for any finite set of pre-existing paths, the suffix-appending
collision loop terminates by its own existence test and returns a path that
does not currently exist (were the fuel ever exhausted, the loop would
return the candidate it was examining — an existing path — so freshness of
the result also certifies genuine termination). -/
theorem c9_resolver_terminates_fresh (existing : List String)
    (device_folder filename : String) :
    resolvePath existing device_folder filename ∉ existing := by
  obtain ⟨j, hj, hout⟩ :=
    exists_fresh_candidate existing (candidate device_folder filename)
      (candidate_inj device_folder filename)
  exact resolveLoop_found existing (candidate device_folder filename)
    (existing.length + 1) 0 ⟨j, Nat.zero_le j, by omega, hout⟩

/-! ### The upload loop: structural lemmas -/

theorem filePasses_of_ne {p : FilePart} (h : p.filename ≠ "") :
    filePasses p = true := by
  simp [filePasses, allowed_file, bne_iff_ne, h]

theorem trackerGet_set (t : Tracker) (sid : String) (v : SessionState) :
    trackerGet (trackerSet t sid v) sid = some v := by
  simp [trackerGet, trackerSet]

/-- The `fs` component of the loop is exactly `fsAfter` (whatever the total
count, start index, and the rest of the state). -/
theorem processFiles_fs (df : String) :
    ∀ (l : List FilePart) (n idx : Nat) (st : LoopState),
      (processFiles df n l idx st).1.fs = fsAfter df l st.fs := by
  intro l
  induction l with
  | nil => intro n idx st; rfl
  | cons p rest ih =>
    intro n idx st
    by_cases hp : filePasses p = true
    · cases hfm : p.failMsg with
      | some m => simp [processFiles, fsAfter, hp, hfm]
      | none =>
        simp only [processFiles, fsAfter, hp, hfm, if_true]
        exact ih n (idx + 1) _
    · simp only [processFiles, fsAfter, hp, Bool.false_eq_true, if_false]
      exact ih n (idx + 1) st

theorem fsAfter_ok_len (df : String) :
    ∀ (l : List FilePart) (fs : List String),
      (∀ p ∈ l, filePasses p = true) → (∀ p ∈ l, p.failMsg = none) →
      (fsAfter df l fs).length = fs.length + l.length := by
  intro l
  induction l with
  | nil => intro fs _ _; simp [fsAfter]
  | cons p rest ih =>
    intro fs hpass hok
    have hp := hpass p (List.mem_cons_self p rest)
    have hf := hok p (List.mem_cons_self p rest)
    simp only [fsAfter, hp, hf, if_true]
    rw [ih _ (fun q hq => hpass q (List.mem_cons_of_mem p hq))
        (fun q hq => hok q (List.mem_cons_of_mem p hq))]
    simp
    omega

/-- After the first failing file the loop writes nothing more: the final
filesystem does not depend on the files that follow the failure. -/
theorem fsAfter_stop (df : String) (fp : FilePart) (m : String)
    (hp : filePasses fp = true) (hf : fp.failMsg = some m) :
    ∀ (pre post : List FilePart) (fs : List String),
      fsAfter df (pre ++ fp :: post) fs = fsAfter df (pre ++ [fp]) fs := by
  intro pre
  induction pre with
  | nil =>
    intro post fs
    simp [fsAfter, hp, hf]
  | cons q rest ih =>
    intro post fs
    by_cases hq : filePasses q = true
    · cases hfm : q.failMsg with
      | some m' => simp [fsAfter, hq, hfm]
      | none => simp only [List.cons_append, fsAfter, hq, hfm, if_true]; exact ih post _
    · simp only [List.cons_append, fsAfter, hq, Bool.false_eq_true, if_false]
      exact ih post fs

/-- Processing a concatenation: if the first segment completes without an
exception, the loop carries on into the second from the accumulated
state. -/
theorem processFiles_append (df : String) (n : Nat) :
    ∀ (l1 l2 : List FilePart) (idx : Nat) (st : LoopState),
      (processFiles df n l1 idx st).2 = none →
      processFiles df n (l1 ++ l2) idx st
        = processFiles df n l2 (idx + l1.length) (processFiles df n l1 idx st).1 := by
  intro l1
  induction l1 with
  | nil => intro l2 idx st _; simp [processFiles]
  | cons p rest ih =>
    intro l2 idx st h2
    by_cases hp : filePasses p = true
    · cases hfm : p.failMsg with
      | some m => simp [processFiles, hp, hfm] at h2
      | none =>
        simp only [List.cons_append, processFiles, hp, hfm, if_true] at h2 ⊢
        rw [List.append_eq, ih l2 (idx + 1) _ h2]
        congr 1
        simp
        omega
    · simp only [List.cons_append, processFiles, hp, Bool.false_eq_true, if_false] at h2 ⊢
      rw [List.append_eq, ih l2 (idx + 1) st h2]
      congr 1
      simp
      omega

/-- A segment of passing, succeeding files completes without exception and
accumulates one descriptor, one trace entry `floor(idx·100/n)` per file,
leaving `total_files` alone. -/
theorem processFiles_ok (df : String) (n : Nat) :
    ∀ (l : List FilePart) (idx : Nat) (st : LoopState),
      (∀ p ∈ l, filePasses p = true) → (∀ p ∈ l, p.failMsg = none) →
      (processFiles df n l idx st).2 = none
      ∧ (processFiles df n l idx st).1.sess.uploaded_files.length
          = st.sess.uploaded_files.length + l.length
      ∧ (processFiles df n l idx st).1.trace
          = st.trace ++ (List.range l.length).map (fun j => progressAt (idx + j) n)
      ∧ (processFiles df n l idx st).1.sess.total_files = st.sess.total_files
      ∧ (processFiles df n l idx st).1.uploaded.length
          = st.uploaded.length + l.length := by
  intro l
  induction l with
  | nil => intro idx st _ _; simp [processFiles]
  | cons p rest ih =>
    intro idx st hpass hok
    have hp := hpass p (List.mem_cons_self p rest)
    have hf := hok p (List.mem_cons_self p rest)
    simp only [processFiles, hp, hf, if_true]
    obtain ⟨h1, h2, h3, h4, h5⟩ := ih (idx + 1) _
      (fun q hq => hpass q (List.mem_cons_of_mem p hq))
      (fun q hq => hok q (List.mem_cons_of_mem p hq))
    refine ⟨h1, ?_, ?_, ?_, ?_⟩
    · rw [h2]
      simp
      omega
    · rw [h3]
      simp only [List.length_cons, List.range_succ_eq_map, List.map_cons, List.map_map]
      have harg : ((fun j => progressAt (idx + j) n) ∘ Nat.succ)
          = fun j => progressAt (idx + 1 + j) n := by
        funext j
        simp only [Function.comp]
        congr 1
        omega
      rw [harg]
      simp [progressAt]
    · rw [h4]
    · rw [h5]
      simp
      omega

/-- A passing file whose save raises aborts the loop: progress is reset to
0, the status records the message, nothing else of the state changes, and
the files after it are never examined. -/
theorem processFiles_fail_step (df : String) (n : Nat) (fp : FilePart)
    (post : List FilePart) (idx : Nat) (st : LoopState) (m : String)
    (hp : filePasses fp = true) (hf : fp.failMsg = some m) :
    processFiles df n (fp :: post) idx st =
      ({ st with
          sess := { st.sess with
            progress := 0
            status := "error: " ++ m
            current_file := some (secure_filename fp.filename) }
          trace := st.trace ++ [progressAt idx n, 0] }, some m) := by
  simp [processFiles, hp, hf]

/-! ### Head and last of appended traces -/

theorem head?_append_left {α : Type} (l l' : List α) (a : α)
    (h : l.head? = some a) : (l ++ l').head? = some a := by
  cases l with
  | nil => simp at h
  | cons b t => exact h

theorem getLast?_append_one {α : Type} (l : List α) (a : α) :
    (l ++ [a]).getLast? = some a := by
  rw [← List.head?_reverse, List.reverse_append]
  rfl

theorem getLast?_append_pair {α : Type} (l : List α) (a b : α) :
    (l ++ [a, b]).getLast? = some b := by
  rw [← List.head?_reverse, List.reverse_append]
  rfl

/-- If no part's save raises, the loop finishes without an exception —
no hypothesis on filenames: parts with an empty filename are skipped, the
others save successfully. -/
theorem processFiles_no_fail (df : String) (n : Nat) :
    ∀ (l : List FilePart), (∀ p ∈ l, p.failMsg = none) →
      ∀ (idx : Nat) (st : LoopState), (processFiles df n l idx st).2 = none := by
  intro l
  induction l with
  | nil => intro _ idx st; rfl
  | cons p rest ih =>
    intro h idx st
    by_cases hp : filePasses p = true
    · have hf := h p (List.mem_cons_self p rest)
      simp only [processFiles, hp, hf, if_true]
      exact ih (fun q hq => h q (List.mem_cons_of_mem p hq)) (idx + 1) _
    · simp only [processFiles, hp, Bool.false_eq_true, if_false]
      exact ih (fun q hq => h q (List.mem_cons_of_mem p hq)) (idx + 1) st

/-- Every tracker write of the loop appends to the trace, so the first
recorded progress value — the 0 the session is created with — survives
any run, successful or not. -/
theorem processFiles_trace_head (df : String) :
    ∀ (l : List FilePart) (n idx : Nat) (st : LoopState) (a : Nat) (tr : List Nat),
      st.trace = a :: tr →
      (processFiles df n l idx st).1.trace.head? = some a := by
  intro l
  induction l with
  | nil => intro n idx st a tr h; simp [processFiles, h]
  | cons p rest ih =>
    intro n idx st a tr h
    by_cases hp : filePasses p = true
    · cases hfm : p.failMsg with
      | some m => simp [processFiles, hp, hfm, h]
      | none =>
        simp only [processFiles, hp, hfm, if_true]
        exact ih n (idx + 1) _ a (tr ++ [progressAt idx n]) (by simp [h])
    · simp only [processFiles, hp, Bool.false_eq_true, if_false]
      exact ih n (idx + 1) st a tr h

/-! ### Whole-request characterizations -/

/-- A request whose parts pass, with the first failure at position
`pre.length`: 500 response carrying the message, session left at
progress 0 / `"error: …"` retaining exactly the `pre.length` descriptors
already written, filesystem grown by exactly `pre.length` paths and
identical to the run in which the failing file is last (the files after
the failure are never attempted). -/
theorem upload_fail_run (t : Tracker) (sid ua : String) (fs0 : List String)
    (pre : List FilePart) (fp : FilePart) (post : List FilePart) (m : String)
    (hpre1 : ∀ p ∈ pre, p.filename ≠ "") (hpre2 : ∀ p ∈ pre, p.failMsg = none)
    (hfp1 : fp.filename ≠ "") (hfp2 : fp.failMsg = some m) :
    (upload_file t sid ua (pre ++ fp :: post) fs0).response = UploadResponse.serverError m
    ∧ (∃ s, trackerGet (upload_file t sid ua (pre ++ fp :: post) fs0).tracker sid = some s
        ∧ s.progress = 0 ∧ s.status = "error: " ++ m
        ∧ s.uploaded_files.length = pre.length
        ∧ s.total_files = pre.length + 1 + post.length)
    ∧ (upload_file t sid ua (pre ++ fp :: post) fs0).fs.length = fs0.length + pre.length
    ∧ (upload_file t sid ua (pre ++ fp :: post) fs0).fs
        = (upload_file t sid ua (pre ++ [fp]) fs0).fs := by
  have hpass : ∀ p ∈ pre, filePasses p = true :=
    fun p hp => filePasses_of_ne (hpre1 p hp)
  have hfpPass : filePasses fp = true := filePasses_of_ne hfp1
  have hFalse : ∀ (post' : List FilePart), (pre ++ fp :: post').isEmpty = false := by
    intro post'
    cases hpp : pre ++ fp :: post' with
    | nil => exact absurd hpp (by simp)
    | cons a l => rfl
  have hlen : ∀ (post' : List FilePart), ¬(pre ++ fp :: post').length = 0 := by
    intro post'
    simp
  have key : ∀ (post' : List FilePart),
      (upload_file t sid ua (pre ++ fp :: post') fs0).response = UploadResponse.serverError m
      ∧ (upload_file t sid ua (pre ++ fp :: post') fs0).tracker
          = trackerSet t sid
              ⟨0, "error: " ++ m, (pre ++ fp :: post').length,
                (processFiles (get_device_folder ua) (pre ++ fp :: post').length pre 0
                  ⟨fs0, ⟨0, "starting", (pre ++ fp :: post').length, [], none⟩,
                    [], [0]⟩).1.sess.uploaded_files,
                some (secure_filename fp.filename)⟩
      ∧ (upload_file t sid ua (pre ++ fp :: post') fs0).fs
          = fsAfter (get_device_folder ua) pre fs0 := by
    intro post'
    obtain ⟨h1, h2, h3, h4, h5⟩ := processFiles_ok (get_device_folder ua)
      (pre ++ fp :: post').length pre 0
      ⟨fs0, ⟨0, "starting", (pre ++ fp :: post').length, [], none⟩, [], [0]⟩ hpass hpre2
    refine ⟨?_, ?_, ?_⟩ <;>
      simp only [upload_file, hFalse post', Bool.false_eq_true, if_false, hlen post',
        processFiles_append _ _ pre (fp :: post') 0 _ h1,
        processFiles_fail_step _ _ fp post' _ _ m hfpPass hfp2]
    · congr 2
    · exact processFiles_fs _ pre _ 0 _
  obtain ⟨hresp, htr, hfs⟩ := key post
  obtain ⟨_, _, hfs'⟩ := key []
  have hupl : (processFiles (get_device_folder ua) (pre ++ fp :: post).length pre 0
      ⟨fs0, ⟨0, "starting", (pre ++ fp :: post).length, [], none⟩,
        [], [0]⟩).1.sess.uploaded_files.length = pre.length := by
    have h2 := (processFiles_ok (get_device_folder ua)
      (pre ++ fp :: post).length pre 0
      ⟨fs0, ⟨0, "starting", (pre ++ fp :: post).length, [], none⟩, [], [0]⟩
      hpass hpre2).2.1
    simpa using h2
  refine ⟨hresp, ?_, ?_, ?_⟩
  · rw [htr]
    refine ⟨_, trackerGet_set t sid _, rfl, rfl, hupl, ?_⟩
    simp
    omega
  · rw [hfs]
    exact fsAfter_ok_len _ pre fs0 hpass hpre2
  · rw [hfs, hfs']

/-- C3 (amended): the progress values the handler writes exactly are
literal constants of the source, and they behave as follows.  For every
non-empty request, the first progress value written for the session is 0
(the record of line 138 is created at progress 0).  If no file's save
raises, the final tracker update sets progress to exactly 100 with status
`"completed"` (lines 173–174).  If the save of some file raises, the final
tracker update resets progress to 0 with status `"error: <message>"`
(lines 178–179) — so progress is not monotonically non-decreasing across
every tracker update: on the failure path it falls back to 0 (see
`c3_progress_counterexample`), and 100 with `"completed"` is reached only
on success.  The in-flight percentages of line 146 are computed in binary64
floating point, which this embedding does not model exactly (see
`progressAt`); CPython's `int((29/50)*100)` is 57 where the exact floor is
58, so the original claim's floor equation is also false of the program,
and no conjunct here asserts the in-flight values. -/
theorem c3_progress_amended :
    (∀ (t : Tracker) (sid ua : String) (files : List FilePart) (fs0 : List String),
      files ≠ [] →
      (upload_file t sid ua files fs0).trace.head? = some 0)
    ∧ (∀ (t : Tracker) (sid ua : String) (files : List FilePart) (fs0 : List String),
      files ≠ [] → (∀ p ∈ files, p.failMsg = none) →
      (upload_file t sid ua files fs0).trace.getLast? = some 100
        ∧ ∃ s, trackerGet (upload_file t sid ua files fs0).tracker sid = some s
            ∧ s.progress = 100 ∧ s.status = "completed")
    ∧ (∀ (t : Tracker) (sid ua : String) (fs0 : List String) (pre : List FilePart)
        (fp : FilePart) (post : List FilePart) (m : String),
        (∀ p ∈ pre, p.failMsg = none) →
        fp.filename ≠ "" → fp.failMsg = some m →
        (upload_file t sid ua (pre ++ fp :: post) fs0).trace.getLast? = some 0
        ∧ ∃ s, trackerGet (upload_file t sid ua (pre ++ fp :: post) fs0).tracker sid = some s
            ∧ s.progress = 0 ∧ s.status = "error: " ++ m) := by
  refine ⟨?_, ?_, ?_⟩
  · intro t sid ua files fs0 hne
    have hFalse : files.isEmpty = false := by
      cases files with
      | nil => exact absurd rfl hne
      | cons a l => rfl
    have hlen : ¬files.length = 0 := by
      cases files with
      | nil => exact absurd rfl hne
      | cons a l => simp
    have hhead := processFiles_trace_head (get_device_folder ua) files files.length 0
      ⟨fs0, ⟨0, "starting", files.length, [], none⟩, [], [0]⟩ 0 [] rfl
    cases hsplit : (processFiles (get_device_folder ua) files.length files 0
        ⟨fs0, ⟨0, "starting", files.length, [], none⟩, [], [0]⟩).2 with
    | none =>
      simp only [upload_file, hFalse, Bool.false_eq_true, if_false, hlen, hsplit]
      exact head?_append_left _ _ 0 hhead
    | some m =>
      simp only [upload_file, hFalse, Bool.false_eq_true, if_false, hlen, hsplit]
      exact hhead
  · intro t sid ua files fs0 hne hok
    have hFalse : files.isEmpty = false := by
      cases files with
      | nil => exact absurd rfl hne
      | cons a l => rfl
    have hlen : ¬files.length = 0 := by
      cases files with
      | nil => exact absurd rfl hne
      | cons a l => simp
    have hsplit : (processFiles (get_device_folder ua) files.length files 0
        ⟨fs0, ⟨0, "starting", files.length, [], none⟩, [], [0]⟩).2 = none :=
      processFiles_no_fail _ _ files hok 0 _
    simp only [upload_file, hFalse, Bool.false_eq_true, if_false, hlen, hsplit]
    exact ⟨getLast?_append_one _ 100, _, trackerGet_set t sid _, rfl, rfl⟩
  · intro t sid ua fs0 pre fp post m hpre2 hfp1 hfp2
    have hFalse : (pre ++ fp :: post).isEmpty = false := by
      cases hpp : pre ++ fp :: post with
      | nil => exact absurd hpp (by simp)
      | cons a l => rfl
    have hlen : ¬(pre ++ fp :: post).length = 0 := by simp
    have h1 : (processFiles (get_device_folder ua) (pre ++ fp :: post).length pre 0
        ⟨fs0, ⟨0, "starting", (pre ++ fp :: post).length, [], none⟩, [], [0]⟩).2 = none :=
      processFiles_no_fail _ _ pre hpre2 0 _
    refine ⟨?_, ?_⟩ <;>
      simp only [upload_file, hFalse, Bool.false_eq_true, if_false, hlen,
        processFiles_append _ _ pre (fp :: post) 0 _ h1,
        processFiles_fail_step _ _ fp post _ _ m (filePasses_of_ne hfp1) hfp2]
    · exact getLast?_append_pair _ _ 0
    · exact ⟨_, trackerGet_set t sid _, rfl, rfl⟩

/-- Counterexample to C3 as stated: for the concrete two-file request whose
second save fails, the tracker's progress values are written in the order
`0, 0, 50, 0` — the failure-path update drops the percentage from 50 back
to 0, so progress is not monotonically non-decreasing across every tracker
update. -/
theorem c3_progress_counterexample :
    (upload_file [] "cex-session" "Mozilla iPhone"
        [⟨"a.jpg", 3, none⟩, ⟨"b.jpg", 5, some "disk full"⟩] []).trace = [0, 0, 50, 0]
    ∧ ¬ List.Pairwise (· ≤ ·)
        (upload_file [] "cex-session" "Mozilla iPhone"
          [⟨"a.jpg", 3, none⟩, ⟨"b.jpg", 5, some "disk full"⟩] []).trace := by
  exact ⟨by decide, by decide⟩

/-- Witness for the amended C3 at a concrete successful two-file upload:
the first progress write is 0, the last is exactly 100, and the stored
session ends at 100 / `"completed"`. -/
theorem c3_progress_amended_witness :
    (upload_file [] "w3" "UA iPhone" [⟨"a.jpg", 1, none⟩, ⟨"b.jpg", 2, none⟩] []).trace.head?
        = some 0
    ∧ (upload_file [] "w3" "UA iPhone" [⟨"a.jpg", 1, none⟩, ⟨"b.jpg", 2, none⟩] []).trace.getLast?
        = some 100
    ∧ ∃ s, trackerGet
          (upload_file [] "w3" "UA iPhone" [⟨"a.jpg", 1, none⟩, ⟨"b.jpg", 2, none⟩] []).tracker
          "w3" = some s
        ∧ s.progress = 100 ∧ s.status = "completed" :=
  ⟨c3_progress_amended.1 [] "w3" "UA iPhone" [⟨"a.jpg", 1, none⟩, ⟨"b.jpg", 2, none⟩] []
      (by decide),
    c3_progress_amended.2.1 [] "w3" "UA iPhone" [⟨"a.jpg", 1, none⟩, ⟨"b.jpg", 2, none⟩] []
      (by decide) (by decide)⟩

/-- C4: if the `(pre.length + 1)`-th file of a request fails to write, the
response is the 500 body `{'success': False, 'error': m}`, the session is
marked failed with that message while keeping the descriptors of the
`pre.length` files already written (their paths stay in the filesystem —
no rollback), and the files after the failing one are never attempted (the
filesystem ends exactly as in the run where the failing file is last, with
exactly `pre.length` new paths). -/
theorem c4_midstream_failure (t : Tracker) (sid ua : String) (fs0 : List String)
    (pre : List FilePart) (fp : FilePart) (post : List FilePart) (m : String)
    (hpre1 : ∀ p ∈ pre, p.filename ≠ "") (hpre2 : ∀ p ∈ pre, p.failMsg = none)
    (hfp1 : fp.filename ≠ "") (hfp2 : fp.failMsg = some m) :
    (upload_file t sid ua (pre ++ fp :: post) fs0).response = UploadResponse.serverError m
    ∧ respStatus (upload_file t sid ua (pre ++ fp :: post) fs0).response = 500
    ∧ (∃ s, trackerGet (upload_file t sid ua (pre ++ fp :: post) fs0).tracker sid = some s
        ∧ s.status = "error: " ++ m
        ∧ s.uploaded_files.length = pre.length
        ∧ s.total_files = pre.length + 1 + post.length)
    ∧ (upload_file t sid ua (pre ++ fp :: post) fs0).fs.length = fs0.length + pre.length
    ∧ (upload_file t sid ua (pre ++ fp :: post) fs0).fs
        = (upload_file t sid ua (pre ++ [fp]) fs0).fs := by
  obtain ⟨ha, ⟨s, hs, _, herr, hupl, htot⟩, hc, hd⟩ :=
    upload_fail_run t sid ua fs0 pre fp post m hpre1 hpre2 hfp1 hfp2
  refine ⟨ha, ?_, ⟨s, hs, herr, hupl, htot⟩, hc, hd⟩
  rw [ha]
  rfl

/-- Witness for C4: three files, the second failing with "disk full". -/
theorem c4_midstream_failure_witness :
    (upload_file [] "w4" "UA iPhone"
        ([⟨"a.jpg", 3, none⟩] ++ ⟨"b.jpg", 5, some "disk full"⟩ :: [⟨"c.jpg", 7, none⟩])
        []).response = UploadResponse.serverError "disk full"
    ∧ respStatus (upload_file [] "w4" "UA iPhone"
        ([⟨"a.jpg", 3, none⟩] ++ ⟨"b.jpg", 5, some "disk full"⟩ :: [⟨"c.jpg", 7, none⟩])
        []).response = 500
    ∧ (∃ s, trackerGet (upload_file [] "w4" "UA iPhone"
          ([⟨"a.jpg", 3, none⟩] ++ ⟨"b.jpg", 5, some "disk full"⟩ :: [⟨"c.jpg", 7, none⟩])
          []).tracker "w4" = some s
        ∧ s.status = "error: " ++ "disk full"
        ∧ s.uploaded_files.length = 1
        ∧ s.total_files = 3)
    ∧ (upload_file [] "w4" "UA iPhone"
        ([⟨"a.jpg", 3, none⟩] ++ ⟨"b.jpg", 5, some "disk full"⟩ :: [⟨"c.jpg", 7, none⟩])
        []).fs.length = 1
    ∧ (upload_file [] "w4" "UA iPhone"
        ([⟨"a.jpg", 3, none⟩] ++ ⟨"b.jpg", 5, some "disk full"⟩ :: [⟨"c.jpg", 7, none⟩])
        []).fs
      = (upload_file [] "w4" "UA iPhone"
          ([⟨"a.jpg", 3, none⟩] ++ [⟨"b.jpg", 5, some "disk full"⟩]) []).fs :=
  c4_midstream_failure [] "w4" "UA iPhone" [] [⟨"a.jpg", 3, none⟩]
    ⟨"b.jpg", 5, some "disk full"⟩ [⟨"c.jpg", 7, none⟩] "disk full"
    (by decide) (by decide) (by decide) rfl

end Orbit
